import Mathlib

/-!
Verification of the content synchronization engine (`content-sync/content_sync.py`).

The Python source is shallowly embedded:
* string-processing primitives (`in`, `str.replace`, `str.split`, `str.strip`, …)
  are modelled by structurally recursive functions on `List Char`, wrapped at the
  `String` level;
* the publish-time HTML/JS mutations (`inject_app_config_script`,
  `patch_bootstrap_js`) become pure `String → String` functions;
* every external command executed through `run` / `run_capture` /
  `subprocess.check_output` is recorded in an explicit trace of `Cmd` values, and
  the outside world (exit status, captured stdout) is an oracle
  `Env : List Cmd → Cmd → ExecResult` consulted at each step, so the git
  synchronizer, the publish pipeline and the change-detection loops become pure
  trace-transforming functions;
* fallible Python code (`try`/`except`) becomes case analysis on the oracle's
  success bit; an exception that escapes a function is an `Option`-`none` result.
-/

set_option autoImplicit false
set_option maxRecDepth 100000

namespace ContentSync

/-! ### Python string primitives, embedded structurally on `List Char` -/

namespace PyStr

/-- Python `pat in s` (substring containment). -/
def strContains (pat : List Char) : List Char → Bool
  | [] => pat.isEmpty
  | c :: rest => pat.isPrefixOf (c :: rest) || strContains pat rest

/-- Number of positions of `s` at which `pat` starts. For patterns that cannot
overlap themselves this is Python's `s.count(pat)`. -/
def countOcc (pat : List Char) : List Char → Nat
  | [] => 0
  | c :: rest => (if pat.isPrefixOf (c :: rest) then 1 else 0) + countOcc pat rest

/-- Worker for `strReplace`.  The `Nat` argument is the number of characters of a
just-replaced occurrence still to be consumed, which keeps the recursion
structural on the list. Intended for non-empty `pat` (as in the source). -/
def strReplaceGo (pat rep : List Char) : List Char → Nat → List Char
  | [], _ => []
  | _ :: rest, skip + 1 => strReplaceGo pat rep rest skip
  | c :: rest, 0 =>
    if pat ≠ [] ∧ pat.isPrefixOf (c :: rest) then
      rep ++ strReplaceGo pat rep rest (pat.length - 1)
    else
      c :: strReplaceGo pat rep rest 0

/-- Python `s.replace(pat, rep)` for non-empty `pat`: leftmost, non-overlapping,
replaces every occurrence. -/
def strReplace (pat rep s : List Char) : List Char :=
  strReplaceGo pat rep s 0

theorem strContains_nil_pat : ∀ l : List Char, strContains [] l = true
  | [] => rfl
  | _ :: rest => by simp [strContains, List.isPrefixOf]

theorem strContains_cons {pat : List Char} {c : Char} {rest : List Char} :
    strContains pat (c :: rest) = (pat.isPrefixOf (c :: rest) || strContains pat rest) := rfl

theorem strReplaceGo_of_not_contains {pat rep : List Char} :
    ∀ s, strContains pat s = false → strReplaceGo pat rep s 0 = s := by
  intro s
  induction s with
  | nil => intro _; rfl
  | cons c rest ih =>
    intro h
    rw [strContains_cons, Bool.or_eq_false_iff] at h
    rw [strReplaceGo]
    rw [if_neg (by simp [h.1])]
    rw [ih h.2]

theorem strReplace_of_not_contains {pat rep : List Char} {s : List Char}
    (h : strContains pat s = false) : strReplace pat rep s = s :=
  strReplaceGo_of_not_contains s h

theorem strReplaceGo_decomp {pat rep : List Char} (hp : pat ≠ []) :
    ∀ s, strContains pat s = true → ∃ a b, strReplaceGo pat rep s 0 = a ++ rep ++ b := by
  intro s
  induction s with
  | nil =>
    intro h
    simp [strContains, List.isEmpty_iff] at h
    exact absurd h hp
  | cons c rest ih =>
    intro h
    rw [strContains_cons, Bool.or_eq_true] at h
    by_cases hpre : pat.isPrefixOf (c :: rest) = true
    · refine ⟨[], strReplaceGo pat rep rest (pat.length - 1), ?_⟩
      rw [strReplaceGo, if_pos ⟨hp, hpre⟩]
      simp
    · have hrest : strContains pat rest = true := by
        rcases h with h | h
        · exact absurd h hpre
        · exact h
      obtain ⟨a, b, hab⟩ := ih hrest
      refine ⟨c :: a, b, ?_⟩
      rw [strReplaceGo, if_neg (by simp [hpre]), hab]
      simp

theorem isPrefixOf_append {pat a b : List Char} (h : pat.isPrefixOf a = true) :
    pat.isPrefixOf (a ++ b) = true := by
  rw [List.isPrefixOf_iff_prefix] at h ⊢
  exact h.trans (List.prefix_append a b)

theorem strContains_append_right {pat b : List Char} (h : strContains pat b = true) :
    ∀ a, strContains pat (a ++ b) = true := by
  intro a
  induction a with
  | nil => simpa using h
  | cons c rest ih =>
    rw [List.cons_append, strContains_cons, ih]
    simp

theorem strContains_append_left {pat : List Char} :
    ∀ a, strContains pat a = true → ∀ b, strContains pat (a ++ b) = true := by
  intro a
  induction a with
  | nil =>
    intro h b
    simp [strContains, List.isEmpty_iff] at h
    rw [h]
    exact strContains_nil_pat b
  | cons c rest ih =>
    intro h b
    rw [strContains_cons, Bool.or_eq_true] at h
    rw [List.cons_append, strContains_cons]
    rcases h with h | h
    · have h2 := @isPrefixOf_append pat (c :: rest) b h
      rw [List.cons_append] at h2
      rw [h2]
      simp
    · rw [ih h b]
      simp

theorem countOcc_eq_zero_of_not_contains {pat : List Char} :
    ∀ s, strContains pat s = false → countOcc pat s = 0 := by
  intro s
  induction s with
  | nil => intro _; rfl
  | cons c rest ih =>
    intro h
    rw [strContains_cons, Bool.or_eq_false_iff] at h
    rw [countOcc, if_neg (by simp [h.1]), ih h.2]

end PyStr

/-! ### String-level wrappers used by the embedded functions -/

/-- Python `pat in s`. -/
def pyContains (s pat : String) : Bool := PyStr.strContains pat.data s.data

/-- Python `s.replace(old, new)` (all occurrences, `old` non-empty at use sites). -/
def pyReplace (s old new : String) : String := ⟨PyStr.strReplace old.data new.data s.data⟩

/-- Number of start positions of `pat` inside `s` (the spec-side notion of "how
many references the document contains"). -/
def pyCount (s pat : String) : Nat := PyStr.countOcc pat.data s.data

theorem pyReplace_of_not_contains {s old new : String}
    (h : pyContains s old = false) : pyReplace s old new = s := by
  unfold pyReplace
  rw [PyStr.strReplace_of_not_contains h]

theorem pyContains_pyReplace {s old new pat : String} (h0 : old.data ≠ [])
    (hs : pyContains s old = true) (hn : pyContains new pat = true) :
    pyContains (pyReplace s old new) pat = true := by
  unfold pyContains pyReplace at *
  obtain ⟨a, b, hab⟩ := PyStr.strReplaceGo_decomp h0 s.data hs
  show PyStr.strContains pat.data (PyStr.strReplace old.data new.data s.data) = true
  rw [PyStr.strReplace, hab]
  rw [List.append_assoc]
  exact PyStr.strContains_append_right
    (PyStr.strContains_append_left new.data hn b) a

theorem pyCount_eq_zero_of_not_contains {s pat : String}
    (h : pyContains s pat = false) : pyCount s pat = 0 :=
  PyStr.countOcc_eq_zero_of_not_contains s.data h

/-! ### Publish-time mutations (`inject_app_config_script`, `patch_bootstrap_js`)

`inject_app_config_script` iterates over every `*.html` file of the staging
tree and rewrites its text; `patch_bootstrap_js` rewrites the single file
`js/redpen-editor-bootstrap.js` when it exists.  Both per-file text
transformations are embedded below (the source writes the file back only when
the text changed, which leaves the resulting content identical). -/

def APP_CONFIG_REF : String := "app-config.js"

def HEAD_CLOSE : String := "</head>"

def SCRIPT_TAG : String := "  <script src=\"/app-config.js\"></script>\n</head>"

/-- Per-document text transformation of `inject_app_config_script`
(content_sync.py lines 61-72): skip any document already mentioning
`app-config.js`, otherwise replace every `</head>` by the script reference
followed by `</head>`. -/
def inject_app_config_script (text : String) : String :=
  if pyContains text APP_CONFIG_REF then text
  else pyReplace text HEAD_CLOSE SCRIPT_TAG

def BOOTSTRAP_NEEDLE : String := "function apiBase(path)\x7b return path; \x7d"

def BOOTSTRAP_REPLACEMENT : String :=
  "function apiBase(path)\x7b try \x7b var c = (window.APP_CONFIG && window.APP_CONFIG.apiBaseUrl) ? String(window.APP_CONFIG.apiBaseUrl) : null; if (c) \x7b c = c.replace(/\\\\\\/$/, \"\"); return c + path; \x7d \x7d catch(e) \x7b\x7d return path; \x7d"

/-- Text transformation of `patch_bootstrap_js` (content_sync.py lines 75-90)
applied to the bootstrap file content: replace the stub only while it is
present verbatim. -/
def patch_bootstrap_js (s : String) : String :=
  if pyContains s BOOTSTRAP_NEEDLE then pyReplace s BOOTSTRAP_NEEDLE BOOTSTRAP_REPLACEMENT
  else s

theorem inject_of_contains {t : String} (h : pyContains t APP_CONFIG_REF = true) :
    inject_app_config_script t = t := by
  unfold inject_app_config_script
  rw [if_pos h]

theorem inject_of_no_head_close {t : String} (h : pyContains t HEAD_CLOSE = false) :
    inject_app_config_script t = t := by
  unfold inject_app_config_script
  by_cases hc : pyContains t APP_CONFIG_REF = true
  · rw [if_pos hc]
  · rw [if_neg hc, pyReplace_of_not_contains h]

theorem inject_contains_of_head_close {t : String} (h : pyContains t HEAD_CLOSE = true) :
    pyContains (inject_app_config_script t) APP_CONFIG_REF = true := by
  unfold inject_app_config_script
  by_cases hc : pyContains t APP_CONFIG_REF = true
  · rw [if_pos hc]; exact hc
  · rw [if_neg hc]
    exact pyContains_pyReplace (by decide) h (by decide)

theorem inject_idempotent (t : String) :
    inject_app_config_script (inject_app_config_script t) = inject_app_config_script t := by
  by_cases hc : pyContains t APP_CONFIG_REF = true
  · rw [inject_of_contains hc]
    exact inject_of_contains hc
  · by_cases hh : pyContains t HEAD_CLOSE = true
    · exact inject_of_contains (inject_contains_of_head_close hh)
    · have h0 := inject_of_no_head_close (Bool.eq_false_iff.mpr hh)
      rw [h0]
      exact h0

end ContentSync

namespace ContentSync

namespace PyStr

/-- Worker for Python `s.split(sep)` with non-empty `sep`; `cur` holds the
current piece in reverse, the `Nat` counts characters of a just-matched
separator still to be consumed. -/
def splitOnGo (sep : List Char) : List Char → Nat → List Char → List (List Char)
  | [], _, cur => [cur.reverse]
  | _ :: rest, skip + 1, cur => splitOnGo sep rest skip cur
  | c :: rest, 0, cur =>
    if sep ≠ [] ∧ sep.isPrefixOf (c :: rest) then
      cur.reverse :: splitOnGo sep rest (sep.length - 1) []
    else
      splitOnGo sep rest 0 (c :: cur)

/-- Worker for Python `s.split(sep, 1)`: `none` when `sep` does not occur. -/
def splitOnceGo (sep : List Char) : List Char → Option (List Char × List Char)
  | [] => none
  | c :: rest =>
    if sep ≠ [] ∧ sep.isPrefixOf (c :: rest) then
      some ([], (c :: rest).drop sep.length)
    else
      match splitOnceGo sep rest with
      | some (a, b) => some (c :: a, b)
      | none => none

/-- Python `s.split()`: split on whitespace runs, no empty pieces. -/
def splitWsGo : List Char → List Char → List (List Char)
  | [], cur => if cur.isEmpty then [] else [cur.reverse]
  | c :: rest, cur =>
    if c.isWhitespace then
      if cur.isEmpty then splitWsGo rest [] else cur.reverse :: splitWsGo rest []
    else
      splitWsGo rest (c :: cur)

/-- Python `s.strip()`. -/
def trimL (l : List Char) : List Char :=
  ((l.dropWhile Char.isWhitespace).reverse.dropWhile Char.isWhitespace).reverse

/-- Decimal value of a digit run; `none` on any non-digit. -/
def digitsValGo : List Char → Nat → Option Nat
  | [], acc => some acc
  | c :: rest, acc =>
    if c.isDigit then digitsValGo rest (acc * 10 + (c.toNat - 48)) else none

/-- Python `int(s)` for already-stripped text: optional sign, decimal digits. -/
def pyIntL? (l : List Char) : Option Int :=
  match l with
  | '-' :: rest => if rest ≠ [] then (digitsValGo rest 0).map (fun n => -(n : Int)) else none
  | '+' :: rest => if rest ≠ [] then (digitsValGo rest 0).map (fun n => (n : Int)) else none
  | _ => if l ≠ [] then (digitsValGo l 0).map (fun n => (n : Int)) else none

end PyStr

/-- Python `s.split(sep)` for non-empty `sep`. -/
def pySplit (s sep : String) : List String :=
  (PyStr.splitOnGo sep.data s.data 0 []).map String.mk

/-- Python `s.split(sep, 1)`; `none` when `sep` is absent (two-target unpacking
then raises `ValueError`). -/
def pySplitOnce (s sep : String) : Option (String × String) :=
  (PyStr.splitOnceGo sep.data s.data).map (fun p => (String.mk p.1, String.mk p.2))

/-- Python `s.split()`. -/
def pySplitWs (s : String) : List String := (PyStr.splitWsGo s.data []).map String.mk

/-- Python `s.strip()`. -/
def pyStrip (s : String) : String := String.mk (PyStr.trimL s.data)

/-- Python `s.splitlines()` for newline-separated text. -/
def pySplitlines (s : String) : List String :=
  let l := pySplit s "\n"
  if l.getLast? = some "" then l.dropLast else l

/-- Python `s.startswith(p)`. -/
def pyStartsWith (s p : String) : Bool := p.data.isPrefixOf s.data

/-- Python `s.lower()`. -/
def pyLower (s : String) : String := String.mk (s.data.map Char.toLower)

/-- Python `int(s)`; `none` when the text is not a signed decimal number
(`int` then raises `ValueError`). -/
def pyInt? (s : String) : Option Int := PyStr.pyIntL? s.data

/-- `s.split(sep, 1)[1]` at call sites that already know `sep` occurs. -/
def afterFirst (s sep : String) : String :=
  match pySplitOnce s sep with
  | some p => p.2
  | none => s

/-- The `.path` component `urlparse` extracts from an origin-form request
target: the part before the fragment (`#`) and query (`?`). -/
def urlparse_path (s : String) : String :=
  (pySplit ((pySplit s "#").headD "") "?").headD ""

/-! ### Spawned processes: commands, the world oracle, traces -/

/-- One spawned external command: argument vector plus working directory
(`""` stands for `cwd=None`, the daemon's own working directory). -/
structure Cmd where
  argv : List String
  cwd : String
deriving DecidableEq

/-- Outcome of one spawned command: `ok = true` iff it exited with status 0;
`out` is its captured stdout. -/
structure ExecResult where
  ok : Bool
  out : String
deriving DecidableEq

/-- The outside world: from the commands spawned so far and the command being
spawned, the outcome it produces. -/
def Env : Type := List Cmd → Cmd → ExecResult

/-- `run(cmd, cwd)` (`subprocess.check_call`): spawn, record in the trace;
`false` models `CalledProcessError`. -/
def run (env : Env) (tr : List Cmd) (argv : List String) (cwd : String) :
    Bool × List Cmd :=
  ((env tr ⟨argv, cwd⟩).ok, tr ++ [⟨argv, cwd⟩])

/-- `run_capture(cmd, cwd)`: `subprocess.check_output` decoded and `.strip()`ed. -/
def run_capture (env : Env) (tr : List Cmd) (argv : List String) (cwd : String) :
    Bool × String × List Cmd :=
  ((env tr ⟨argv, cwd⟩).ok, pyStrip (env tr ⟨argv, cwd⟩).out, tr ++ [⟨argv, cwd⟩])

/-- Plain `subprocess.check_output(...).decode()` (no strip), as used by
`compute_fingerprint`. -/
def check_output (env : Env) (tr : List Cmd) (argv : List String) (cwd : String) :
    Bool × String × List Cmd :=
  ((env tr ⟨argv, cwd⟩).ok, (env tr ⟨argv, cwd⟩).out, tr ++ [⟨argv, cwd⟩])

/-- `subprocess.call`: spawn, exit status ignored. -/
def call (tr : List Cmd) (argv : List String) (cwd : String) : List Cmd :=
  tr ++ [⟨argv, cwd⟩]

end ContentSync

namespace ContentSync

/-! ### Environment-variable configuration -/

/-- The environment variables the engine reads, with the source's defaults. -/
structure EnvConfig where
  commit_author_name : String := "medinsky.net"
  commit_author_email : String := "volokhonsky@gmail.com"
  submodule_strategy : Option String := none
  loop_guard_env : Option Nat := none
  webhook_secret : Option String := none
  repo_dir : Option String := none
  public_dir : Option String := none
  staging_dir : Option String := none
  git_ref : Option String := none
  api_base_url : Option String := none

/-- `os.environ.get("SUBMODULE_STRATEGY", "remote").strip().lower()`. -/
def EnvConfig.strategy (cfg : EnvConfig) : String :=
  pyLower (pyStrip (cfg.submodule_strategy.getD "remote"))

/-- `os.environ.get("REPO_DIR", "/srv/repo")`. -/
def EnvConfig.repoDir (cfg : EnvConfig) : String := cfg.repo_dir.getD "/srv/repo"

/-- `os.environ.get("PUBLIC_DIR", "/srv/public")`. -/
def EnvConfig.publicDir (cfg : EnvConfig) : String := cfg.public_dir.getD "/srv/public"

/-- `os.environ.get("STAGING_DIR", "/srv/staging")`. -/
def EnvConfig.stagingDir (cfg : EnvConfig) : String := cfg.staging_dir.getD "/srv/staging"

/-- `os.environ.get("GIT_REF", "main")`. -/
def EnvConfig.gitRef (cfg : EnvConfig) : String := cfg.git_ref.getD "main"

/-- `os.environ.get("API_BASE_URL", "")`. -/
def EnvConfig.apiBase (cfg : EnvConfig) : String := cfg.api_base_url.getD ""

/-- `int(os.environ.get("LOOP_GUARD_SECONDS", "10"))`. -/
def loop_guard_seconds (cfg : EnvConfig) : Nat := cfg.loop_guard_env.getD 10

/-! ### Submodule discovery and bidirectional sync (`content_sync.py` 249-388) -/

/-- Loop body of the `.gitmodules` parse in `list_submodules` (lines 253-261):
one iteration per `--get-regexp` output line. `line.split(".")[1]` on a line
with fewer than two dot-separated fields raises `IndexError`, which — like a
failing `git config` lookup — aborts the whole `try` block while keeping the
entries collected so far. -/
def list_submodules_loop (env : Env) (repo : String) :
    List String → List (String × String) → List Cmd → List (String × String) × List Cmd
  | [], acc, tr => (acc, tr)
  | line :: rest, acc, tr =>
    let parts := pySplit line "."
    if parts.length ≥ 2 then
      let r := run_capture env tr ["git", "config", "-f", ".gitmodules",
        "submodule." ++ parts.getD 1 "" ++ ".path"] repo
      if r.1 then
        let path := pyStrip r.2.1
        if path ≠ "" then
          list_submodules_loop env repo rest (acc ++ [(parts.getD 1 "", path)]) r.2.2
        else
          list_submodules_loop env repo rest acc r.2.2
      else (acc, r.2.2)
    else (acc, tr)

/-- Fallback parse of `git submodule status` lines (lines 263-272). -/
def list_submodules_fallback (lines : List String) : List (String × String) :=
  lines.foldl (fun acc line =>
    let parts := pySplitWs (pyStrip line)
    if parts.length ≥ 2 then
      acc ++ [(pyReplace (parts.getD 1 "") "/" "_", parts.getD 1 "")]
    else acc) []

/-- `list_submodules(repo)` (lines 249-273): `(name, path)` pairs from
`.gitmodules`, falling back to `git submodule status` parsing. -/
def list_submodules (env : Env) (repo : String) (tr : List Cmd) :
    List (String × String) × List Cmd :=
  let r := run_capture env tr ["git", "config", "-f", ".gitmodules", "--name-only",
    "--get-regexp", "^submodule\\..*\\.path$"] repo
  let p := if r.1 then list_submodules_loop env repo (pySplitlines r.2.1) [] r.2.2
           else ([], r.2.2)
  if p.1.isEmpty then
    let r2 := run_capture env p.2 ["git", "submodule", "status"] repo
    if r2.1 then (list_submodules_fallback (pySplitlines r2.2.1), r2.2.2)
    else ([], r2.2.2)
  else p

/-- `detect_branch_for_submodule(sub_dir)` (lines 276-298): upstream tracking
ref, then current branch name, then symbolic `origin/HEAD`, then `"main"`. -/
def detect_branch_for_submodule (env : Env) (sub_dir : String) (tr : List Cmd) :
    String × List Cmd :=
  let r1 := run_capture env tr
    ["git", "rev-parse", "--abbrev-ref", "--symbolic-full-name", "@\x7bu\x7d"] sub_dir
  if r1.1 ∧ r1.2.1 ≠ "" ∧ pyContains r1.2.1 "/" then
    (afterFirst r1.2.1 "/", r1.2.2)
  else
    let r2 := run_capture env r1.2.2 ["git", "symbolic-ref", "--quiet", "--short", "HEAD"] sub_dir
    if r2.1 ∧ r2.2.1 ≠ "" then
      (r2.2.1, r2.2.2)
    else
      let r3 := run_capture env r2.2.2
        ["git", "symbolic-ref", "-q", "--short", "refs/remotes/origin/HEAD"] sub_dir
      if r3.1 ∧ r3.2.1 ≠ "" ∧ pyStartsWith r3.2.1 "origin/" then
        (afterFirst r3.2.1 "/", r3.2.2)
      else ("main", r3.2.2)

/-- `has_worktree_changes(sub_dir)` (lines 301-306): non-empty porcelain
status; a failing status query reads as "no changes". -/
def has_worktree_changes (env : Env) (sub_dir : String) (tr : List Cmd) :
    Bool × List Cmd :=
  let r := run_capture env tr ["git", "status", "--porcelain"] sub_dir
  (r.1 && pyStrip r.2.1 != "", r.2.2)

/-- `ahead_behind(sub_dir, branch)` (lines 309-316): fetch then count
`HEAD...origin/<branch>`; any failure (fetch, rev-list, or unpacking/parsing
the two counts) yields `(0, 0)`. -/
def ahead_behind (env : Env) (sub_dir branch : String) (tr : List Cmd) :
    (Int × Int) × List Cmd :=
  let rf := run env tr ["git", "fetch", "--all", "--prune"] sub_dir
  if rf.1 then
    let rr := run_capture env rf.2
      ["git", "rev-list", "--left-right", "--count", "HEAD...origin/" ++ branch] sub_dir
    if rr.1 then
      match pySplitWs rr.2.1 with
      | [l, r] =>
        match pyInt? l, pyInt? r with
        | some li, some ri => ((li, ri), rr.2.2)
        | _, _ => ((0, 0), rr.2.2)
      | _ => ((0, 0), rr.2.2)
    else ((0, 0), rr.2.2)
  else ((0, 0), rf.2)

/-- The push block of `sync_one_submodule` (lines 358-367): `git push` with one
`--set-upstream` retry. -/
def push_step (env : Env) (sub_dir branch : String) (tr : List Cmd) :
    Bool × List Cmd :=
  let p1 := run env tr ["git", "push", "origin", branch] sub_dir
  if p1.1 then (true, p1.2)
  else
    let p2 := run env p1.2 ["git", "push", "--set-upstream", "origin", branch] sub_dir
    if p2.1 then (true, p2.2) else (false, p2.2)

/-- Lines 356-370 of `sync_one_submodule`: the ahead/behind query and the
short-circuiting `ahead > 0 or has_worktree_changes(...)` push decision. -/
def push_phase (env : Env) (sub_dir branch : String) (tr : List Cmd) :
    Bool × List Cmd :=
  let ab := ahead_behind env sub_dir branch tr
  if ab.1.1 > 0 then push_step env sub_dir branch ab.2
  else
    let hw := has_worktree_changes env sub_dir ab.2
    if hw.1 then push_step env sub_dir branch hw.2
    else (true, hw.2)

/-- `sync_one_submodule(repo, name, rel_path)` (lines 319-375): detect branch,
auto-commit local changes, fetch, rebase (aborting on conflict), then push when
ahead or still dirty. -/
def sync_one_submodule (cfg : EnvConfig) (env : Env) (repo name rel_path : String)
    (tr : List Cmd) : Bool × List Cmd :=
  let sub_dir := repo ++ "/" ++ rel_path
  let br := detect_branch_for_submodule env sub_dir tr
  let hw := has_worktree_changes env sub_dir br.2
  let commitStep : Bool × List Cmd :=
    if hw.1 then
      let ra := run env hw.2 ["git", "add", "-A"] sub_dir
      if ra.1 then
        run env ra.2 ["git", "-c", "user.name=" ++ cfg.commit_author_name,
          "-c", "user.email=" ++ cfg.commit_author_email,
          "commit", "-m", "chore(sync): server-side update"] sub_dir
      else (false, ra.2)
    else (true, hw.2)
  if commitStep.1 then
    let rf := run env commitStep.2 ["git", "fetch", "--all", "--prune"] sub_dir
    if rf.1 then
      let rp := run env rf.2 ["git", "pull", "--rebase", "origin", br.1] sub_dir
      if rp.1 then push_phase env sub_dir br.1 rp.2
      else
        let rd := run_capture env rp.2 ["git", "diff", "--name-only", "--diff-filter=U"] sub_dir
        let rab := run env rd.2.2 ["git", "rebase", "--abort"] sub_dir
        (false, rab.2)
    else (false, rf.2)
  else (false, commitStep.2)

/-- The `for name, path in subs` loop of `local_submodules_sync`
(lines 384-387). -/
def sync_submodules_loop (cfg : EnvConfig) (env : Env) (repo : String) :
    List (String × String) → Bool → List Cmd → Bool × List Cmd
  | [], overall, tr => (overall, tr)
  | (name, path) :: rest, overall, tr =>
    let r := sync_one_submodule cfg env repo name path tr
    sync_submodules_loop cfg env repo rest (overall && r.1) r.2

/-- `local_submodules_sync(repo)` (lines 378-388): sync every discovered
submodule; `true` when there are none. -/
def local_submodules_sync (cfg : EnvConfig) (env : Env) (repo : String) (tr : List Cmd) :
    Bool × List Cmd :=
  let subs := list_submodules env repo tr
  if subs.1.isEmpty then (true, subs.2)
  else sync_submodules_loop cfg env repo subs.1 true subs.2

end ContentSync

namespace ContentSync

/-! ### Publish pipeline and full sync cycle (`content_sync.py` 99-172) -/

/-- `publish(repo_dir, staging_dir, public_dir, api_base_url)` (lines 99-116).
`stagingExists` is the `staging_dir.exists()` test.  The `mkdir`, the staged
tree mutation (`mutate_staging`) and the publish-stamp write are local
filesystem operations, not spawned commands, so they do not appear in the
trace.  A failing `rsync` (`check_call`) propagates: result `none`. -/
def publish (env : Env) (stagingExists : Bool)
    (repo_dir staging_dir public_dir api_base_url : String) (tr : List Cmd) :
    Option Unit × List Cmd :=
  let tr := if stagingExists then call tr ["rm", "-rf", staging_dir] "" else tr
  let r1 := run env tr
    ["rsync", "-a", "--delete", "--exclude", ".git", repo_dir ++ "/", staging_dir ++ "/"] ""
  if r1.1 then
    let r2 := run env r1.2 ["rsync", "-a", "--delete", staging_dir ++ "/", public_dir ++ "/"] ""
    if r2.1 then (some (), r2.2) else (none, r2.2)
  else (none, r1.2)

/-- The per-submodule force-clean loop of `process_update` (lines 159-169):
fetch then hard-reset each submodule to `origin/<branch>`, every failure
ignored. -/
def force_clean_loop (env : Env) (repo : String) :
    List (String × String) → List Cmd → List Cmd
  | [], tr => tr
  | (_, path) :: rest, tr =>
    let sub_dir := repo ++ "/" ++ path
    let br := detect_branch_for_submodule env sub_dir tr
    let rf := run env br.2 ["git", "fetch", "--all", "--prune"] sub_dir
    let tr2 :=
      if rf.1 then (run env rf.2 ["git", "reset", "--hard", "origin/" ++ br.1] sub_dir).2
      else rf.2
    force_clean_loop env repo rest tr2

/-- `process_update(repo, public, staging, git_ref, api_base)` (lines 118-172).
`some false`: the local submodule sync failed, publish skipped.  `some true`:
publish ran.  `none`: an uncaught `CalledProcessError` escaped (parent fetch
failure, both reset and checkout failing, or a failing `rsync` in `publish`). -/
def process_update (cfg : EnvConfig) (env : Env) (stagingExists : Bool)
    (repo public staging git_ref api_base : String) (tr : List Cmd) :
    Option Bool × List Cmd :=
  let subs := local_submodules_sync cfg env repo tr
  if !subs.1 then (some false, subs.2)
  else
    let rf := run env subs.2 ["git", "fetch", "--all", "--prune"] repo
    if !rf.1 then (none, rf.2)
    else
      let rr := run env rf.2 ["git", "reset", "--hard", "origin/" ++ git_ref] repo
      let afterReset : Bool × List Cmd :=
        if rr.1 then (true, rr.2)
        else run env rr.2 ["git", "checkout", "-f", git_ref] repo
      if !afterReset.1 then (none, afterReset.2)
      else
        let rs := run env afterReset.2 ["git", "submodule", "sync", "--recursive"] repo
        let trU :=
          if cfg.strategy = "remote" then
            let ru := run env rs.2
              ["git", "submodule", "update", "--init", "--recursive", "--remote"] repo
            if ru.1 then ru.2
            else (run env ru.2 ["git", "submodule", "update", "--init", "--recursive"] repo).2
          else
            (run env rs.2 ["git", "submodule", "update", "--init", "--recursive"] repo).2
        let subs2 := list_submodules env repo trU
        let trF := force_clean_loop env repo subs2.1 subs2.2
        let pb := publish env stagingExists repo staging public api_base trF
        match pb.1 with
        | some _ => (some true, pb.2)
        | none => (none, pb.2)

/-! ### Fingerprint engine (`content_sync.py` 189-244, 528-543) -/

/-- `compute_fingerprint(repo, git_ref)` (lines 189-244): best-effort fetches,
then five git queries; every failing query contributes the empty string and the
formatted fingerprint is always produced. -/
def compute_fingerprint (env : Env) (repo git_ref : String) (tr : List Cmd) :
    String × List Cmd :=
  let f1 := run env tr ["git", "fetch", "--all", "--prune"] repo
  let f2 := run env f1.2
    ["git", "submodule", "foreach", "--recursive", "git fetch --all --prune || true"] repo
  let q1 := check_output env f2.2 ["git", "ls-remote", "--heads", "origin", git_ref] repo
  let out1 := pyStrip q1.2.1
  let remote_tip := if q1.1 then (if out1 ≠ "" then (pySplitWs out1).headD "" else "") else ""
  let q2 := check_output env q1.2.2 ["git", "rev-parse", "HEAD"] repo
  let local_head := if q2.1 then pyStrip q2.2.1 else ""
  let q3 := check_output env q2.2.2 ["git", "submodule", "status", "--recursive"] repo
  let subs := if q3.1 then q3.2.1 else ""
  let q4 := check_output env q3.2.2
    ["git", "submodule", "foreach", "--recursive",
     "sh -c \x27echo $name; git ls-remote --symref origin HEAD 2>/dev/null || true\x27"] repo
  let sub_remote_heads := if q4.1 then q4.2.1 else ""
  let q5 := check_output env q4.2.2 ["git", "status", "--porcelain"] repo
  let dirty := if q5.1 then pyStrip q5.2.1 else ""
  let dirty_flag := if dirty ≠ "" then "1" else "0"
  ("remote=" ++ remote_tip ++ "\nlocal=" ++ local_head ++ "\ndirty=" ++ dirty_flag ++
    "\nsubs:\n" ++ subs ++ "sub_remote_heads:\n" ++ sub_remote_heads, q5.2.2)

/-- Metadata `Path.stat()` returns for one file, as hashed by the watcher. -/
structure StatInfo where
  mtime_ns : Nat
  size : Nat
deriving DecidableEq

/-- One regular file under the watched root: path relative to the root and the
result of `stat()` (`none` when `stat` raises). -/
structure FileEntry where
  rel : String
  stat : Option StatInfo
deriving DecidableEq

/-- The per-file loop of `PollingWatcher._compute_digest` (lines 533-542) over
the already-sorted file list: the sequence of chunks fed to the SHA-256 hash
(the digest is a function of exactly this sequence) together with the `rels`
list; a file whose `stat()` raises is skipped entirely. -/
def digest_chunks : List FileEntry → List String × List String
  | [] => ([], [])
  | f :: rest =>
    match f.stat with
    | none => digest_chunks rest
    | some st =>
      let p := digest_chunks rest
      (f.rel :: toString st.mtime_ns :: toString st.size :: p.1, f.rel :: p.2)

/-- Lexicographic comparison of relative paths (the order `sorted(files)`
lists the walked files in). -/
def charListLe : List Char → List Char → Bool
  | [], _ => true
  | _ :: _, [] => false
  | c :: cs, d :: ds => if c = d then charListLe cs ds else decide (c < d)

/-- Insertion of one file into the `sorted(files)` order (by relative path). -/
def insertSorted (f : FileEntry) : List FileEntry → List FileEntry
  | [] => [f]
  | g :: rest =>
    if charListLe f.rel.data g.rel.data then f :: g :: rest else g :: insertSorted f rest

/-- `sorted(files)`. -/
def sortFiles : List FileEntry → List FileEntry
  | [] => []
  | f :: rest => insertSorted f (sortFiles rest)

/-- `PollingWatcher._compute_digest` (lines 528-543): hash-input chunks and
relative-path list over the sorted file listing. -/
def compute_digest (files : List FileEntry) : List String × List String :=
  digest_chunks (sortFiles files)

end ContentSync

namespace ContentSync

/-! ### Webhook endpoint (`content_sync.py` 43-52, 592-638) -/

/-- `verify_signature(secret, payload, signature_header)` (lines 43-52).  The
HMAC-SHA256 hex digest is an oracle `hmac : secret → payload → hexdigest`;
`signature_header.split("=", 1)` with no `=` raises `ValueError`, caught to
`False`; `hmac.compare_digest` is string equality. -/
def verify_signature (hmac : String → String → String)
    (secret payload signature_header : String) : Bool :=
  match pySplitOnce signature_header "=" with
  | none => false
  | some (algo, sig) =>
    if algo ≠ "sha256" then false
    else hmac secret payload == sig

/-- The observable outcome of one `do_POST` call: the HTTP status sent (`none`
when an exception escaped before `send_response`) and the fingerprint
persisted afterwards, if any. -/
structure PostOutcome where
  status : Option Nat
  wrote : Option String
deriving DecidableEq

/-- `Handler.do_POST` (lines 592-638): 404 on an unrecognized path, 401 on a
missing shared secret or failing signature check, 202 on a non-`push` event
header, otherwise run the locked `process_update` cycle (persisting a fresh
fingerprint on success) and answer 200. -/
def do_POST (cfg : EnvConfig) (env : Env) (hmac : String → String → String)
    (stagingExists : Bool) (path payload : String)
    (signature_header evt_header : Option String) (tr : List Cmd) :
    PostOutcome × List Cmd :=
  if urlparse_path path ≠ "/webhook" ∧ urlparse_path path ≠ "/.hooks/redpen-publish" then
    (⟨some 404, none⟩, tr)
  else
    let signature := signature_header.getD ""
    let secret := cfg.webhook_secret.getD ""
    if secret = "" ∨ verify_signature hmac secret payload signature = false then
      (⟨some 401, none⟩, tr)
    else
      let evt := evt_header.getD ""
      if evt ≠ "" ∧ evt ≠ "push" then (⟨some 202, none⟩, tr)
      else
        let pu := process_update cfg env stagingExists cfg.repoDir cfg.publicDir
          cfg.stagingDir cfg.gitRef cfg.apiBase tr
        match pu.1 with
        | some true =>
          let fp := compute_fingerprint env cfg.repoDir cfg.gitRef pu.2
          (⟨some 200, some fp.1⟩, fp.2)
        | some false => (⟨some 200, none⟩, pu.2)
        | none => (⟨none, none⟩, pu.2)

/-! ### Change-detection loops (`content_sync.py` 493-500, 545-588, 655-683) -/

/-- `get_publish_stamp_time(public_dir)` (lines 493-500): mtime of
`.published_by_sync`, `0.0` when the stamp is missing or unreadable.
Timestamps (epoch seconds) are modelled as integers; the guard logic only
subtracts and compares them. -/
def get_publish_stamp_time (stamp_mtime : Option Int) : Int :=
  match stamp_mtime with
  | some t => t
  | none => 0

/-- What one debounced iteration of `PollingWatcher.run` decides to do. -/
inductive WatcherAction where
  /-- No actionable change (including first-iteration baseline seeding). -/
  | idle
  /-- The digest changed again during the debounce sleep: update the baseline
  only, act on nothing. -/
  | stillInFlux
  /-- Public mode: the publish stamp was written within the loop-guard window;
  update the baseline, do not acquire the lock, run no cycle. -/
  | loopGuarded
  /-- Acquire the global lock and run source-sync plus the full cycle. -/
  | runCycle
deriving DecidableEq

/-- One iteration of the `PollingWatcher.run` polling loop (lines 548-584),
from the digest comparison up to the decision.  `digest` is the fresh digest,
`digest2` its re-computation after the debounce sleep (only consulted when a
change was seen), `now` is `time.time()` at the loop-guard comparison, and
`loop_guard` is `int(os.environ.get("LOOP_GUARD_SECONDS", "10"))`.  Returns
the action taken and the new `last_digest` baseline. -/
def watcher_iteration (mode : String) (loop_guard : Nat)
    (last_digest digest digest2 : String) (stamp_mtime : Option Int) (now : Int) :
    WatcherAction × String :=
  if last_digest ≠ "" ∧ digest ≠ last_digest then
    if digest2 ≠ digest then (.stillInFlux, digest2)
    else
      let stamp_time := get_publish_stamp_time stamp_mtime
      if mode = "public" ∧ stamp_time ≠ 0 ∧ now - stamp_time < (loop_guard : Int) then
        (.loopGuarded, digest2)
      else (.runCycle, digest2)
  else if last_digest = "" then (.idle, digest) else (.idle, last_digest)

/-- What one iteration of `monitor_loop` did. -/
structure MonitorOutcome where
  /-- `process_update` was invoked (the full cycle ran under the lock). -/
  ran : Bool
  /-- The loop variable `last_fp` after the iteration. -/
  last_fp : Option String
  /-- The fingerprint persisted by `write_fingerprint`, when any. -/
  wrote : Option String
deriving DecidableEq

/-- One iteration of `monitor_loop` (lines 655-683).  `persisted` is what
`read_fingerprint()` returns inside the locked section (`none`: missing or
unreadable file).  The optimistic check compares the loop variable `last_fp`
against a fresh fingerprint computed outside the lock; after acquiring the
lock the fingerprint is recomputed and the full cycle runs only when that
recomputation still differs from the persisted value.  An exception escaping
`process_update` is swallowed by the iteration's `except Exception` handler
(`last_fp` keeps its previous value, nothing is persisted). -/
def monitor_iteration (cfg : EnvConfig) (env : Env) (stagingExists : Bool)
    (persisted : Option String) (last_fp : Option String) (tr : List Cmd) :
    MonitorOutcome × List Cmd :=
  let c1 := compute_fingerprint env cfg.repoDir cfg.gitRef tr
  if last_fp ≠ some c1.1 then
    let c2 := compute_fingerprint env cfg.repoDir cfg.gitRef c1.2
    if some c2.1 ≠ persisted then
      let pu := process_update cfg env stagingExists cfg.repoDir cfg.publicDir
        cfg.stagingDir cfg.gitRef cfg.apiBase c2.2
      match pu.1 with
      | some true => (⟨true, some c2.1, some c2.1⟩, pu.2)
      | some false =>
        (⟨true, some (match persisted with
            | some s => if s ≠ "" then s else c2.1
            | none => c2.1), none⟩, pu.2)
      | none => (⟨true, last_fp, none⟩, pu.2)
    else (⟨false, some c2.1, none⟩, c2.2)
  else (⟨false, last_fp, none⟩, c1.2)

end ContentSync

namespace ContentSync

/-! ### Claim C2: publish-time mutation idempotence -/

/-- Claim C2 (amended): `inject_app_config_script` leaves untouched any
document already referencing `app-config.js`; `patch_bootstrap_js` is a no-op
when the stub is no longer present verbatim; injection is idempotent; after
mutation every HTML document that contains `</head>` holds the `app-config.js`
reference at least once, while a document without any `</head>` is left
entirely unchanged — so such a document does not end up with the reference
exactly once, and a document with several `</head>` occurrences may receive
several references. -/
theorem C2_mutation_idempotence :
    (∀ t, pyContains t APP_CONFIG_REF = true → inject_app_config_script t = t) ∧
    (∀ s, pyContains s BOOTSTRAP_NEEDLE = false → patch_bootstrap_js s = s) ∧
    (∀ t, inject_app_config_script (inject_app_config_script t) =
      inject_app_config_script t) ∧
    (∀ t, pyContains t HEAD_CLOSE = true →
      pyContains (inject_app_config_script t) APP_CONFIG_REF = true) ∧
    (∀ t, pyContains t HEAD_CLOSE = false → inject_app_config_script t = t) := by
  refine ⟨fun t h => inject_of_contains h, fun s h => ?_, inject_idempotent,
    fun t h => inject_contains_of_head_close h, fun t h => inject_of_no_head_close h⟩
  unfold patch_bootstrap_js
  rw [if_neg (by simp [h])]

/-- Witness for C2 at concrete documents. -/
theorem C2_mutation_idempotence_witness :
    inject_app_config_script "<p>app-config.js</p>" = "<p>app-config.js</p>" ∧
    patch_bootstrap_js "<js>f()</js>" = "<js>f()</js>" ∧
    pyContains (inject_app_config_script "<html><head></head></html>") APP_CONFIG_REF = true ∧
    inject_app_config_script "<html><body>x</body></html>" = "<html><body>x</body></html>" :=
  ⟨C2_mutation_idempotence.1 "<p>app-config.js</p>" (by decide),
   C2_mutation_idempotence.2.1 "<js>f()</js>" (by decide),
   C2_mutation_idempotence.2.2.2.1 "<html><head></head></html>" (by decide),
   C2_mutation_idempotence.2.2.2.2 "<html><body>x</body></html>" (by decide)⟩

/-- Counterexample to C2 as stated: an HTML document with no `</head>` close
tag goes through the publish-time mutation without receiving the
`app-config.js` reference at all, so it does not contain it exactly once. -/
theorem C2_exactly_once_counterexample :
    ¬ pyCount (inject_app_config_script "<html><body>x</body></html>") APP_CONFIG_REF = 1 := by
  decide

/-! ### Claim C9: totality of `verify_signature` -/

theorem splitOnceGo_eq_none_of_not_contains {sep : List Char} :
    ∀ s, PyStr.strContains sep s = false → PyStr.splitOnceGo sep s = none := by
  intro s
  induction s with
  | nil => intro _; rfl
  | cons c rest ih =>
    intro h
    rw [PyStr.strContains_cons, Bool.or_eq_false_iff] at h
    rw [PyStr.splitOnceGo, if_neg (by simp [h.1]), ih h.2]

theorem pySplitOnce_eq_none_of_not_contains {s sep : String}
    (h : pyContains s sep = false) : pySplitOnce s sep = none := by
  unfold pySplitOnce
  rw [splitOnceGo_eq_none_of_not_contains s.data h]
  rfl

/-- Claim C9: `verify_signature` is a total function, and whenever the
signature header contains no `=` separator, or its algorithm prefix is not
`sha256`, it returns `False` for every possible HMAC digest oracle — so no
HMAC comparison influences the result in those cases. -/
theorem C9_verify_signature_total :
    (∀ (hmac : String → String → String) secret payload header,
      pyContains header "=" = false →
      verify_signature hmac secret payload header = false) ∧
    (∀ (hmac : String → String → String) secret payload header algo sig,
      pySplitOnce header "=" = some (algo, sig) → algo ≠ "sha256" →
      verify_signature hmac secret payload header = false) := by
  constructor
  · intro hmac secret payload header h
    unfold verify_signature
    rw [pySplitOnce_eq_none_of_not_contains h]
  · intro hmac secret payload header algo sig h halgo
    unfold verify_signature
    rw [h]
    simp [halgo]

/-- Witness for C9: a header without `=` and a non-`sha256` header are both
rejected, for an HMAC oracle that would otherwise match. -/
theorem C9_verify_signature_total_witness :
    verify_signature (fun _ _ => "feed") "k" "body" "nosignaturehere" = false ∧
    verify_signature (fun _ _ => "ff" ) "k" "body" "sha1=ff" = false :=
  ⟨C9_verify_signature_total.1 (fun _ _ => "feed") "k" "body" "nosignaturehere" (by decide),
   C9_verify_signature_total.2 (fun _ _ => "ff") "k" "body" "sha1=ff" "sha1" "ff"
     (by decide) (by decide)⟩

/-! ### Claim C5: the public watcher's publish loop guard -/

/-- Claim C5: when the public watcher sees a debounced-stable change
(`last_digest` non-empty, `digest` differing from it, and the debounce
recomputation `digest2` equal to `digest`) but the publish stamp was written
within the loop-guard window (`LOOP_GUARD_SECONDS`, default 10) of the current
time, the iteration only updates its baseline digest to `digest2` and takes
the `loopGuarded` exit: the lock is not acquired and no sync/publish cycle
runs. -/
theorem C5_public_loop_guard (cfg : EnvConfig)
    (last_digest digest digest2 : String) (t now : Int)
    (h1 : last_digest ≠ "") (h2 : digest ≠ last_digest) (h3 : digest2 = digest)
    (ht : 0 < t) (hle : 0 ≤ now - t)
    (hwin : now - t < (loop_guard_seconds cfg : Int)) :
    watcher_iteration "public" (loop_guard_seconds cfg)
      last_digest digest digest2 (some t) now
      = (WatcherAction.loopGuarded, digest2) := by
  unfold watcher_iteration
  rw [if_pos ⟨h1, h2⟩, if_neg (by simp [h3])]
  rw [if_pos ⟨rfl, by simpa [get_publish_stamp_time] using ne_of_gt ht,
    by simpa [get_publish_stamp_time] using hwin⟩]

/-- Witness for C5: with the default loop guard (10 s), a stamp written at
time 5 and a stable change observed at time 8. -/
theorem C5_public_loop_guard_witness :
    watcher_iteration "public" (loop_guard_seconds {}) "a" "b" "b" (some 5) 8
      = (WatcherAction.loopGuarded, "b") :=
  C5_public_loop_guard {} "a" "b" "b" 5 8 (by decide) (by decide) rfl
    (by decide) (by decide) (by decide)

end ContentSync

namespace ContentSync

/-! ### Claim C8: fingerprinting never aborts on individual failures -/

/-- Oracle under which every spawned command fails. -/
def envAllFail : Env := fun _ _ => ⟨false, ""⟩

/-- Oracle under which every spawned command succeeds with empty output. -/
def envAllOk : Env := fun _ _ => ⟨true, ""⟩

theorem digest_chunks_filter :
    ∀ l : List FileEntry, digest_chunks l = digest_chunks (l.filter (fun f => f.stat.isSome)) := by
  intro l
  induction l with
  | nil => rfl
  | cons f rest ih =>
    cases hst : f.stat with
    | none => simp [digest_chunks, hst, List.filter, ih]
    | some st => simp [digest_chunks, hst, List.filter, ih]

/-- Claim C8: the directory digest skips every file whose `stat` raises and is
computed over exactly the surviving files of the sorted listing; the
repository fingerprint substitutes the empty string for every failed git query
and still yields the formatted fingerprint — under an oracle where every
command (including the best-effort fetches) fails, the fingerprint is the
fixed all-empty-components string. -/
theorem C8_fingerprint_never_aborts :
    (∀ files : List FileEntry,
      compute_digest files =
        digest_chunks ((sortFiles files).filter (fun f => f.stat.isSome))) ∧
    (∀ env repo git_ref tr, (∀ hist c, (env hist c).ok = false) →
      (compute_fingerprint env repo git_ref tr).1 =
        "remote=\nlocal=\ndirty=0\nsubs:\nsub_remote_heads:\n") := by
  constructor
  · intro files
    exact digest_chunks_filter (sortFiles files)
  · intro env repo git_ref tr h
    simp [compute_fingerprint, check_output, run, h]

/-- Witness for C8: the all-failing oracle still produces the comparison
string, and a file list with one failing `stat` digests to the chunks of the
surviving file alone. -/
theorem C8_fingerprint_never_aborts_witness :
    (compute_fingerprint envAllFail "/srv/repo" "main" []).1 =
      "remote=\nlocal=\ndirty=0\nsubs:\nsub_remote_heads:\n" ∧
    compute_digest [⟨"b.html", none⟩, ⟨"a.html", some ⟨7, 42⟩⟩] =
      digest_chunks [⟨"a.html", some ⟨7, 42⟩⟩] :=
  ⟨C8_fingerprint_never_aborts.2 envAllFail "/srv/repo" "main" [] (fun _ _ => rfl),
   (C8_fingerprint_never_aborts.1 [⟨"b.html", none⟩, ⟨"a.html", some ⟨7, 42⟩⟩]).trans
     (by decide)⟩

/-! ### Claim C1: a failed submodule sync skips publish entirely -/

/-- Oracle driving `local_submodules_sync` into failure: `.gitmodules` lists
one submodule `content`, fetches succeed, and the rebase pull fails (a
conflict), so the submodule is marked failed. -/
def envSubFail : Env := fun _ c =>
  if c.argv = ["git", "config", "-f", ".gitmodules", "--name-only",
      "--get-regexp", "^submodule\\..*\\.path$"] then ⟨true, "submodule.content.path\n"⟩
  else if c.argv = ["git", "config", "-f", ".gitmodules", "submodule.content.path"] then
    ⟨true, "content"⟩
  else if c.argv = ["git", "fetch", "--all", "--prune"] then ⟨true, ""⟩
  else ⟨false, ""⟩

/-- Claim C1: when `local_submodules_sync` reports failure, `process_update`
returns `False` immediately — the trace it produces is exactly the submodule
sync's trace, so no parent checkout, no submodule update and no publish
command (in particular no `rsync` into staging or public) is spawned — and
conversely a cycle that reports `True` (publish ran) had a fully successful
submodule sync. -/
theorem C1_skip_publish_on_submodule_failure :
    ∀ cfg env stagingExists repo public staging git_ref api_base tr,
    ((local_submodules_sync cfg env repo tr).1 = false →
      process_update cfg env stagingExists repo public staging git_ref api_base tr
        = (some false, (local_submodules_sync cfg env repo tr).2)) ∧
    ((process_update cfg env stagingExists repo public staging git_ref api_base tr).1
        = some true →
      (local_submodules_sync cfg env repo tr).1 = true) := by
  intro cfg env stagingExists repo public staging git_ref api_base tr
  constructor
  · intro h
    simp [process_update, h]
  · intro h
    by_cases hs : (local_submodules_sync cfg env repo tr).1 = true
    · exact hs
    · have hf : (local_submodules_sync cfg env repo tr).1 = false := by
        simpa using hs
      simp [process_update, hf] at h

/-- Witness for C1: under `envSubFail` the submodule sync fails and the cycle
stops right there with result `False`. -/
theorem C1_skip_publish_on_submodule_failure_witness :
    process_update {} envSubFail false "/srv/repo" "/srv/public" "/srv/staging" "main" "" []
      = (some false, (local_submodules_sync {} envSubFail "/srv/repo" []).2) :=
  (C1_skip_publish_on_submodule_failure {} envSubFail false "/srv/repo" "/srv/public"
    "/srv/staging" "main" "" []).1 (by decide)

/-! ### Claim C6: the monitor loop's double-checked fingerprint comparison -/

/-- Claim C6: in a monitor iteration that observed a fingerprint change
outside the lock, the full sync+publish cycle (`process_update`) is invoked
if and only if the fingerprint recomputed after acquiring the lock differs
from the value persisted in the fingerprint file; when they are equal the
iteration runs no cycle. -/
theorem C6_monitor_double_check :
    ∀ cfg env stagingExists persisted last_fp tr,
    last_fp ≠ some (compute_fingerprint env cfg.repoDir cfg.gitRef tr).1 →
    ((monitor_iteration cfg env stagingExists persisted last_fp tr).1.ran = true
      ↔ some (compute_fingerprint env cfg.repoDir cfg.gitRef
          (compute_fingerprint env cfg.repoDir cfg.gitRef tr).2).1 ≠ persisted) := by
  intro cfg env stagingExists persisted last_fp tr hchange
  by_cases hp : some (compute_fingerprint env cfg.repoDir cfg.gitRef
      (compute_fingerprint env cfg.repoDir cfg.gitRef tr).2).1 ≠ persisted
  · simp only [monitor_iteration, if_pos hchange, if_pos hp]
    rcases hpu : (process_update cfg env stagingExists cfg.repoDir cfg.publicDir
        cfg.stagingDir cfg.gitRef cfg.apiBase
        (compute_fingerprint env cfg.repoDir cfg.gitRef
          (compute_fingerprint env cfg.repoDir cfg.gitRef tr).2).2).1 with _ | b
    · simp [hpu, hp]
    · cases b <;> simp [hpu, hp]
  · simp only [monitor_iteration, if_pos hchange, if_neg hp]
    simp only [not_not] at hp
    simp [hp]

/-- Witness for C6: with the all-failing oracle both computations yield the
constant degraded fingerprint; it differs from the persisted value `"x"`, so
the cycle runs. -/
theorem C6_monitor_double_check_witness :
    (monitor_iteration {} envAllFail false (some "x") none []).1.ran = true :=
  (C6_monitor_double_check {} envAllFail false (some "x") none [] (by decide)).mpr
    (by decide)

end ContentSync

namespace ContentSync

/-! ### Claim C7: webhook response codes -/

/-- Claim C7: for every POST request the handler answers 404 on an
unrecognized hook path; 401 when the shared secret is missing or the
`X-Hub-Signature-256` header is absent, malformed, or fails the HMAC
comparison; 202 when a non-empty `X-GitHub-Event` header other than `push` is
present; and 200 when the cycle then processes successfully. -/
theorem C7_webhook_statuses :
    ∀ cfg env (hmac : String → String → String) stagingExists path payload
      (sig evt : Option String) tr,
    ((urlparse_path path ≠ "/webhook" ∧ urlparse_path path ≠ "/.hooks/redpen-publish") →
      (do_POST cfg env hmac stagingExists path payload sig evt tr).1.status = some 404) ∧
    ((urlparse_path path = "/webhook" ∨ urlparse_path path = "/.hooks/redpen-publish") →
      (cfg.webhook_secret.getD "" = "" ∨
        verify_signature hmac (cfg.webhook_secret.getD "") payload (sig.getD "") = false) →
      (do_POST cfg env hmac stagingExists path payload sig evt tr).1.status = some 401) ∧
    ((urlparse_path path = "/webhook" ∨ urlparse_path path = "/.hooks/redpen-publish") →
      cfg.webhook_secret.getD "" ≠ "" →
      verify_signature hmac (cfg.webhook_secret.getD "") payload (sig.getD "") = true →
      evt.getD "" ≠ "" → evt.getD "" ≠ "push" →
      (do_POST cfg env hmac stagingExists path payload sig evt tr).1.status = some 202) ∧
    ((urlparse_path path = "/webhook" ∨ urlparse_path path = "/.hooks/redpen-publish") →
      cfg.webhook_secret.getD "" ≠ "" →
      verify_signature hmac (cfg.webhook_secret.getD "") payload (sig.getD "") = true →
      (evt.getD "" = "" ∨ evt.getD "" = "push") →
      (process_update cfg env stagingExists cfg.repoDir cfg.publicDir cfg.stagingDir
        cfg.gitRef cfg.apiBase tr).1 = some true →
      (do_POST cfg env hmac stagingExists path payload sig evt tr).1.status = some 200) := by
  intro cfg env hmac stagingExists path payload sig evt tr
  refine ⟨?_, ?_, ?_, ?_⟩
  · intro h
    simp only [do_POST]
    rw [if_pos h]
  · intro hpath hsec
    simp only [do_POST]
    rw [if_neg (by rcases hpath with h | h <;> simp [h])]
    rw [if_pos hsec]
  · intro hpath hsec hver hevt1 hevt2
    simp only [do_POST]
    rw [if_neg (by rcases hpath with h | h <;> simp [h])]
    rw [if_neg (by simp [hsec, hver])]
    rw [if_pos ⟨hevt1, hevt2⟩]
  · intro hpath hsec hver hevt hpu
    simp only [do_POST]
    rw [if_neg (by rcases hpath with h | h <;> simp [h])]
    rw [if_neg (by simp [hsec, hver])]
    rw [if_neg (by rcases hevt with h | h <;> simp [h])]
    simp [hpu]

/-- Witness for C7: the four statuses at concrete requests against a
configured secret and an HMAC oracle returning `cafe`. -/
theorem C7_webhook_statuses_witness :
    (do_POST { webhook_secret := some "s3cr3t" } envAllOk (fun _ _ => "cafe") false
      "/nope" "b" none none []).1.status = some 404 ∧
    (do_POST { webhook_secret := some "s3cr3t" } envAllOk (fun _ _ => "cafe") false
      "/webhook" "b" none none []).1.status = some 401 ∧
    (do_POST { webhook_secret := some "s3cr3t" } envAllOk (fun _ _ => "cafe") false
      "/webhook" "b" (some "sha256=cafe") (some "ping") []).1.status = some 202 ∧
    (do_POST { webhook_secret := some "s3cr3t" } envAllOk (fun _ _ => "cafe") false
      "/.hooks/redpen-publish" "b" (some "sha256=cafe") (some "push") []).1.status
      = some 200 :=
  ⟨(C7_webhook_statuses { webhook_secret := some "s3cr3t" } envAllOk (fun _ _ => "cafe")
      false "/nope" "b" none none []).1 (by decide),
   (C7_webhook_statuses { webhook_secret := some "s3cr3t" } envAllOk (fun _ _ => "cafe")
      false "/webhook" "b" none none []).2.1 (by decide) (by decide),
   (C7_webhook_statuses { webhook_secret := some "s3cr3t" } envAllOk (fun _ _ => "cafe")
      false "/webhook" "b" (some "sha256=cafe") (some "ping") []).2.2.1
      (by decide) (by decide) (by decide) (by decide) (by decide),
   (C7_webhook_statuses { webhook_secret := some "s3cr3t" } envAllOk (fun _ _ => "cafe")
      false "/.hooks/redpen-publish" "b" (some "sha256=cafe") (some "push") []).2.2.2
      (by decide) (by decide) (by decide) (by decide) (by decide)⟩

/-! ### Claim C10: a failing ahead/behind query is treated as nothing to push -/

/-- Oracle for the C10 witness: the first fetch (inside the rebase step)
succeeds, the ahead/behind fetch — the second one — fails, the rebase pull
succeeds, everything else (branch detection, status) fails. -/
def envC10 : Env := fun hist c =>
  if c.argv = ["git", "pull", "--rebase", "origin", "main"] then ⟨true, ""⟩
  else if c.argv = ["git", "fetch", "--all", "--prune"] ∧
      hist.countP (fun d => d.argv == ["git", "fetch", "--all", "--prune"]) = 0 then
    ⟨true, ""⟩
  else ⟨false, ""⟩

/-- Claim C10: when any git command inside `ahead_behind` fails it returns
`(0, 0)`; consequently `sync_one_submodule`, reaching the push decision with a
failed ahead/behind query and a clean worktree, skips the push entirely and
still reports the submodule as successfully synced (`True`). -/
theorem C10_ahead_behind_failure_reports_synced :
    (∀ env sub_dir branch tr,
      (env tr ⟨["git", "fetch", "--all", "--prune"], sub_dir⟩).ok = false →
      ahead_behind env sub_dir branch tr
        = ((0, 0), tr ++ [⟨["git", "fetch", "--all", "--prune"], sub_dir⟩])) ∧
    (∀ env sub_dir branch tr,
      (ahead_behind env sub_dir branch tr).1 = (0, 0) →
      (has_worktree_changes env sub_dir (ahead_behind env sub_dir branch tr).2).1 = false →
      push_phase env sub_dir branch tr
        = (true, (has_worktree_changes env sub_dir (ahead_behind env sub_dir branch tr).2).2)) ∧
    (∀ cfg env repo name rel_path tr,
      (has_worktree_changes env (repo ++ "/" ++ rel_path)
        (detect_branch_for_submodule env (repo ++ "/" ++ rel_path) tr).2).1 = false →
      (env (has_worktree_changes env (repo ++ "/" ++ rel_path)
          (detect_branch_for_submodule env (repo ++ "/" ++ rel_path) tr).2).2
        ⟨["git", "fetch", "--all", "--prune"], repo ++ "/" ++ rel_path⟩).ok = true →
      (env ((has_worktree_changes env (repo ++ "/" ++ rel_path)
            (detect_branch_for_submodule env (repo ++ "/" ++ rel_path) tr).2).2
          ++ [⟨["git", "fetch", "--all", "--prune"], repo ++ "/" ++ rel_path⟩])
        ⟨["git", "pull", "--rebase", "origin",
          (detect_branch_for_submodule env (repo ++ "/" ++ rel_path) tr).1],
          repo ++ "/" ++ rel_path⟩).ok = true →
      (ahead_behind env (repo ++ "/" ++ rel_path)
        (detect_branch_for_submodule env (repo ++ "/" ++ rel_path) tr).1
        ((has_worktree_changes env (repo ++ "/" ++ rel_path)
            (detect_branch_for_submodule env (repo ++ "/" ++ rel_path) tr).2).2
          ++ [⟨["git", "fetch", "--all", "--prune"], repo ++ "/" ++ rel_path⟩]
          ++ [⟨["git", "pull", "--rebase", "origin",
              (detect_branch_for_submodule env (repo ++ "/" ++ rel_path) tr).1],
              repo ++ "/" ++ rel_path⟩])).1 = (0, 0) →
      (has_worktree_changes env (repo ++ "/" ++ rel_path)
        (ahead_behind env (repo ++ "/" ++ rel_path)
          (detect_branch_for_submodule env (repo ++ "/" ++ rel_path) tr).1
          ((has_worktree_changes env (repo ++ "/" ++ rel_path)
              (detect_branch_for_submodule env (repo ++ "/" ++ rel_path) tr).2).2
            ++ [⟨["git", "fetch", "--all", "--prune"], repo ++ "/" ++ rel_path⟩]
            ++ [⟨["git", "pull", "--rebase", "origin",
                (detect_branch_for_submodule env (repo ++ "/" ++ rel_path) tr).1],
                repo ++ "/" ++ rel_path⟩])).2).1 = false →
      (sync_one_submodule cfg env repo name rel_path tr).1 = true) := by
  have hpp : ∀ env sub_dir branch tr,
      (ahead_behind env sub_dir branch tr).1 = (0, 0) →
      (has_worktree_changes env sub_dir (ahead_behind env sub_dir branch tr).2).1 = false →
      push_phase env sub_dir branch tr
        = (true, (has_worktree_changes env sub_dir (ahead_behind env sub_dir branch tr).2).2) := by
    intro env sub_dir branch tr hab hwc
    simp [push_phase, hab, hwc]
  refine ⟨?_, hpp, ?_⟩
  · intro env sub_dir branch tr h
    simp [ahead_behind, run, h]
  · intro cfg env repo name rel_path tr h1 h2 h3 h4 h5
    simp only [sync_one_submodule, run, h1, h2, h3, Bool.false_eq_true, if_false, if_true]
    rw [hpp env (repo ++ "/" ++ rel_path)
      (detect_branch_for_submodule env (repo ++ "/" ++ rel_path) tr).1 _ h4 h5]

end ContentSync

namespace ContentSync

/-- Witness for C10: under `envC10` the submodule reaches the push decision,
the ahead/behind fetch fails (so the query yields `(0, 0)`), the worktree is
clean, no push is attempted and the submodule is reported synced. -/
theorem C10_ahead_behind_failure_reports_synced_witness :
    (sync_one_submodule {} envC10 "r" "sub" "m" []).1 = true :=
  C10_ahead_behind_failure_reports_synced.2.2 {} envC10 "r" "sub" "m" []
    (by decide) (by decide) (by decide) (by decide) (by decide)

end ContentSync


namespace ContentSync

/-! ### Trace preservation lemmas

Every helper of the git synchronizer only appends commands to the trace; these
lemmas show that an arbitrary command predicate `P` holding on the input trace
and on every command the helper can spawn (all of which run in a known working
directory) holds on the whole output trace.  They drive the claims about which
commands a sync cycle can and cannot contain. -/

theorem mem_append_pres {P : Cmd → Prop} {tr ext : List Cmd}
    (hP : ∀ x ∈ tr, P x) (hext : ∀ x ∈ ext, P x) : ∀ x ∈ tr ++ ext, P x := by
  intro x hx
  rcases List.mem_append.mp hx with h | h
  exacts [hP x h, hext x h]

theorem detect_branch_pres (P : Cmd → Prop) (env : Env) (sub_dir : String) (tr : List Cmd)
    (hsub : ∀ argv, P ⟨argv, sub_dir⟩) (hP : ∀ x ∈ tr, P x) :
    ∀ x ∈ (detect_branch_for_submodule env sub_dir tr).2, P x := by
  intro x hx
  unfold detect_branch_for_submodule at hx
  simp only [run_capture, List.append_assoc, List.singleton_append] at hx
  split_ifs at hx <;>
    (rcases List.mem_append.mp hx with h | h
     · exact hP x h
     · fin_cases h <;> exact hsub _)

theorem has_worktree_changes_pres (P : Cmd → Prop) (env : Env) (sub_dir : String)
    (tr : List Cmd) (hsub : ∀ argv, P ⟨argv, sub_dir⟩) (hP : ∀ x ∈ tr, P x) :
    ∀ x ∈ (has_worktree_changes env sub_dir tr).2, P x := by
  intro x hx
  unfold has_worktree_changes at hx
  simp only [run_capture] at hx
  rcases List.mem_append.mp hx with h | h
  · exact hP x h
  · fin_cases h <;> exact hsub _

theorem ahead_behind_pres (P : Cmd → Prop) (env : Env) (sub_dir branch : String)
    (tr : List Cmd) (hsub : ∀ argv, P ⟨argv, sub_dir⟩) (hP : ∀ x ∈ tr, P x) :
    ∀ x ∈ (ahead_behind env sub_dir branch tr).2, P x := by
  intro x hx
  unfold ahead_behind at hx
  simp only [run, run_capture, List.append_assoc, List.singleton_append] at hx
  split_ifs at hx <;> (try split at hx) <;> (try split at hx) <;>
    (rcases List.mem_append.mp hx with h | h
     · exact hP x h
     · fin_cases h <;> exact hsub _)

theorem push_step_pres (P : Cmd → Prop) (env : Env) (sub_dir branch : String)
    (tr : List Cmd) (hsub : ∀ argv, P ⟨argv, sub_dir⟩) (hP : ∀ x ∈ tr, P x) :
    ∀ x ∈ (push_step env sub_dir branch tr).2, P x := by
  intro x hx
  unfold push_step at hx
  simp only [run, List.append_assoc, List.singleton_append] at hx
  split_ifs at hx <;>
    (rcases List.mem_append.mp hx with h | h
     · exact hP x h
     · fin_cases h <;> exact hsub _)

theorem push_phase_pres (P : Cmd → Prop) (env : Env) (sub_dir branch : String)
    (tr : List Cmd) (hsub : ∀ argv, P ⟨argv, sub_dir⟩) (hP : ∀ x ∈ tr, P x) :
    ∀ x ∈ (push_phase env sub_dir branch tr).2, P x := by
  intro x hx
  have hab := ahead_behind_pres P env sub_dir branch tr hsub hP
  have hhw := has_worktree_changes_pres P env sub_dir _ hsub hab
  unfold push_phase at hx
  dsimp only at hx
  split_ifs at hx
  · exact push_step_pres P env sub_dir branch _ hsub hab x hx
  · exact push_step_pres P env sub_dir branch _ hsub hhw x hx
  · exact hhw x hx

set_option maxHeartbeats 2000000 in
theorem sync_one_submodule_pres (P : Cmd → Prop) (cfg : EnvConfig) (env : Env)
    (repo name rel_path : String) (tr : List Cmd)
    (hsub : ∀ argv, P ⟨argv, repo ++ "/" ++ rel_path⟩) (hP : ∀ x ∈ tr, P x) :
    ∀ x ∈ (sync_one_submodule cfg env repo name rel_path tr).2, P x := by
  intro x hx
  have hbr := detect_branch_pres P env (repo ++ "/" ++ rel_path) tr hsub hP
  have hhw := has_worktree_changes_pres P env (repo ++ "/" ++ rel_path) _ hsub hbr
  unfold sync_one_submodule at hx
  simp only [run, run_capture] at hx
  split_ifs at hx <;>
    (try dsimp only at hx) <;>
    (try simp only [List.append_assoc, List.singleton_append] at hx) <;>
    first
    | (refine push_phase_pres P env _ _ _ hsub (mem_append_pres hhw ?_) x hx
       intro y hy
       fin_cases hy <;> exact hsub _)
    | (refine mem_append_pres hhw ?_ x hx
       intro y hy
       fin_cases hy <;> exact hsub _)
    | exact hhw x hx

end ContentSync

namespace ContentSync

theorem run_pres (P : Cmd → Prop) (env : Env) (tr : List Cmd) (argv : List String)
    (cwd : String) (hc : P ⟨argv, cwd⟩) (hP : ∀ x ∈ tr, P x) :
    ∀ x ∈ (run env tr argv cwd).2, P x := by
  intro x hx
  simp only [run] at hx
  refine mem_append_pres hP ?_ x hx
  intro y hy
  fin_cases hy
  exact hc

theorem ite_pres {P : Cmd → Prop} {c : Prop} [Decidable c] {a b : List Cmd}
    (ha : ∀ x ∈ a, P x) (hb : ∀ x ∈ b, P x) : ∀ x ∈ (if c then a else b), P x := by
  split_ifs
  exacts [ha, hb]

theorem sync_submodules_loop_pres (P : Cmd → Prop) (cfg : EnvConfig) (env : Env)
    (repo : String) (hall : ∀ rel argv, P ⟨argv, repo ++ "/" ++ rel⟩) :
    ∀ subs overall tr, (∀ x ∈ tr, P x) →
      ∀ x ∈ (sync_submodules_loop cfg env repo subs overall tr).2, P x := by
  intro subs
  induction subs with
  | nil =>
    intro overall tr hP x hx
    exact hP x (by simpa [sync_submodules_loop] using hx)
  | cons p rest ih =>
    intro overall tr hP x hx
    rcases p with ⟨name, path⟩
    unfold sync_submodules_loop at hx
    exact ih _ _ (sync_one_submodule_pres P cfg env repo name path tr (hall path) hP) x hx

theorem list_submodules_loop_pres (P : Cmd → Prop) (env : Env) (repo : String)
    (hcfg : ∀ s, P ⟨["git", "config", "-f", ".gitmodules",
      "submodule." ++ s ++ ".path"], repo⟩) :
    ∀ lines acc tr, (∀ x ∈ tr, P x) →
      ∀ x ∈ (list_submodules_loop env repo lines acc tr).2, P x := by
  intro lines
  induction lines with
  | nil =>
    intro acc tr hP x hx
    exact hP x (by simpa [list_submodules_loop] using hx)
  | cons line rest ih =>
    intro acc tr hP x hx
    unfold list_submodules_loop at hx
    simp only [run_capture] at hx
    split_ifs at hx <;>
      first
      | exact hP x hx
      | (refine ih _ _ (mem_append_pres hP ?_) x hx
         intro y hy
         fin_cases hy <;> exact hcfg _)
      | (refine mem_append_pres hP ?_ x hx
         intro y hy
         fin_cases hy <;> exact hcfg _)

theorem list_submodules_pres (P : Cmd → Prop) (env : Env) (repo : String) (tr : List Cmd)
    (hre : P ⟨["git", "config", "-f", ".gitmodules", "--name-only", "--get-regexp",
      "^submodule\\..*\\.path$"], repo⟩)
    (hcfg : ∀ s, P ⟨["git", "config", "-f", ".gitmodules",
      "submodule." ++ s ++ ".path"], repo⟩)
    (hst : P ⟨["git", "submodule", "status"], repo⟩)
    (hP : ∀ x ∈ tr, P x) :
    ∀ x ∈ (list_submodules env repo tr).2, P x := by
  intro x hx
  unfold list_submodules at hx
  simp only [run_capture] at hx
  split_ifs at hx <;>
    (try dsimp only at hx) <;>
    (try simp only [List.append_assoc, List.singleton_append] at hx) <;>
    first
    | (refine list_submodules_loop_pres P env repo hcfg _ _ _ (mem_append_pres hP ?_) x hx
       intro y hy
       fin_cases hy <;> exact hre)
    | (refine mem_append_pres
        (list_submodules_loop_pres P env repo hcfg _ _ _ (mem_append_pres hP ?_)) ?_ x hx
       · intro y hy
         fin_cases hy <;> exact hre
       · intro y hy
         fin_cases hy <;> exact hst)
    | (refine mem_append_pres (mem_append_pres hP ?_) ?_ x hx
       · intro y hy
         fin_cases hy <;> exact hre
       · intro y hy
         fin_cases hy <;> exact hst)
    | (refine mem_append_pres hP ?_ x hx
       intro y hy
       fin_cases hy <;> first | exact hre | exact hst)

theorem local_submodules_sync_pres (P : Cmd → Prop) (cfg : EnvConfig) (env : Env)
    (repo : String) (tr : List Cmd)
    (hall : ∀ rel argv, P ⟨argv, repo ++ "/" ++ rel⟩)
    (hre : P ⟨["git", "config", "-f", ".gitmodules", "--name-only", "--get-regexp",
      "^submodule\\..*\\.path$"], repo⟩)
    (hcfg : ∀ s, P ⟨["git", "config", "-f", ".gitmodules",
      "submodule." ++ s ++ ".path"], repo⟩)
    (hst : P ⟨["git", "submodule", "status"], repo⟩)
    (hP : ∀ x ∈ tr, P x) :
    ∀ x ∈ (local_submodules_sync cfg env repo tr).2, P x := by
  intro x hx
  have hls := list_submodules_pres P env repo tr hre hcfg hst hP
  unfold local_submodules_sync at hx
  dsimp only at hx
  split_ifs at hx
  · exact hls x hx
  · exact sync_submodules_loop_pres P cfg env repo hall _ _ _ hls x hx

theorem force_clean_loop_pres (P : Cmd → Prop) (env : Env) (repo : String)
    (hall : ∀ rel argv, P ⟨argv, repo ++ "/" ++ rel⟩) :
    ∀ subs tr, (∀ x ∈ tr, P x) → ∀ x ∈ force_clean_loop env repo subs tr, P x := by
  intro subs
  induction subs with
  | nil =>
    intro tr hP x hx
    exact hP x (by simpa [force_clean_loop] using hx)
  | cons p rest ih =>
    intro tr hP x hx
    rcases p with ⟨name, path⟩
    unfold force_clean_loop at hx
    refine ih _ ?_ x hx
    have hbr := detect_branch_pres P env (repo ++ "/" ++ path) tr (hall path) hP
    exact ite_pres
      (run_pres P env _ _ _ (hall path _) (run_pres P env _ _ _ (hall path _) hbr))
      (run_pres P env _ _ _ (hall path _) hbr)

theorem publish_pres (P : Cmd → Prop) (env : Env) (stagingExists : Bool)
    (repo_dir staging_dir public_dir api_base_url : String) (tr : List Cmd)
    (hpub : ∀ argv, P ⟨argv, ""⟩) (hP : ∀ x ∈ tr, P x) :
    ∀ x ∈ (publish env stagingExists repo_dir staging_dir public_dir api_base_url tr).2,
      P x := by
  intro x hx
  unfold publish at hx
  simp only [call, run] at hx
  split_ifs at hx <;>
    (try dsimp only at hx) <;>
    (try simp only [List.append_assoc, List.singleton_append] at hx) <;>
    (refine mem_append_pres hP ?_ x hx
     intro y hy
     fin_cases hy <;> exact hpub _)

set_option maxHeartbeats 2000000 in
theorem process_update_pres (P : Cmd → Prop) (cfg : EnvConfig) (env : Env)
    (stagingExists : Bool) (repo public staging git_ref api_base : String) (tr : List Cmd)
    (hall : ∀ rel argv, P ⟨argv, repo ++ "/" ++ rel⟩)
    (hre : P ⟨["git", "config", "-f", ".gitmodules", "--name-only", "--get-regexp",
      "^submodule\\..*\\.path$"], repo⟩)
    (hcfg : ∀ s, P ⟨["git", "config", "-f", ".gitmodules",
      "submodule." ++ s ++ ".path"], repo⟩)
    (hst : P ⟨["git", "submodule", "status"], repo⟩)
    (hfetch : P ⟨["git", "fetch", "--all", "--prune"], repo⟩)
    (hreset : P ⟨["git", "reset", "--hard", "origin/" ++ git_ref], repo⟩)
    (hco : P ⟨["git", "checkout", "-f", git_ref], repo⟩)
    (hsync : P ⟨["git", "submodule", "sync", "--recursive"], repo⟩)
    (hup1 : P ⟨["git", "submodule", "update", "--init", "--recursive", "--remote"], repo⟩)
    (hup2 : P ⟨["git", "submodule", "update", "--init", "--recursive"], repo⟩)
    (hpub : ∀ argv, P ⟨argv, ""⟩)
    (hP : ∀ x ∈ tr, P x) :
    ∀ x ∈ (process_update cfg env stagingExists repo public staging git_ref api_base tr).2,
      P x := by
  intro x hx
  have h0 := local_submodules_sync_pres P cfg env repo tr hall hre hcfg hst hP
  unfold process_update at hx
  simp only [run] at hx
  split_ifs at hx <;>
    (try split at hx) <;>
    (try dsimp only at hx) <;>
    (try simp only [List.append_assoc, List.singleton_append] at hx) <;>
    first
    | exact h0 x hx
    | (refine publish_pres P env _ _ _ _ _ _ hpub
         (force_clean_loop_pres P env repo hall _ _
           (list_submodules_pres P env repo _ hre hcfg hst
             (mem_append_pres h0 ?_))) x hx
       intro y hy
       fin_cases hy <;>
         first | exact hfetch | exact hreset | exact hco | exact hsync
               | exact hup1 | exact hup2)
    | (refine mem_append_pres h0 ?_ x hx
       intro y hy
       fin_cases hy <;>
         first | exact hfetch | exact hreset | exact hco | exact hsync
               | exact hup1 | exact hup2)

end ContentSync

namespace ContentSync

/-- Commands that never rewrite a repository's branch state: no `add`,
`commit` or `push` token in the argument vector. -/
def NoParentMutation (c : Cmd) : Prop :=
  c.argv.contains "add" = false ∧ c.argv.contains "commit" = false ∧
  c.argv.contains "push" = false

theorem ne_of_length_ne {s t : String} (h : s.length ≠ t.length) : s ≠ t :=
  fun e => h (by rw [e])

theorem subdir_ne_repo (repo rel : String) : repo ++ "/" ++ rel ≠ repo := by
  apply ne_of_length_ne
  rw [String.length_append, String.length_append]
  have h : "/".length = 1 := rfl
  omega

theorem contains_eq_false_of_forall_ne {l : List String} {w : String}
    (h : ∀ x ∈ l, x ≠ w) : l.contains w = false := by
  induction l with
  | nil => rfl
  | cons a rest ih =>
    have ha := h a (by simp)
    have hr : ∀ x ∈ rest, x ≠ w := fun x hx => h x (by simp [hx])
    show (w == a || rest.contains w) = false
    rw [ih hr]
    simp [beq_eq_false_iff_ne]
    exact fun e => ha e.symm

/-! Trace extension lemmas: these functions only append to the trace. -/

theorem ext_trans {a b c : List Cmd} (h2 : ∃ e, c = b ++ e) (h1 : ∃ e, b = a ++ e) :
    ∃ e, c = a ++ e := by
  obtain ⟨e2, rfl⟩ := h2
  obtain ⟨e1, rfl⟩ := h1
  exact ⟨e1 ++ e2, by simp⟩

theorem detect_branch_ext (env : Env) (sub_dir : String) (tr : List Cmd) :
    ∃ e, (detect_branch_for_submodule env sub_dir tr).2 = tr ++ e := by
  unfold detect_branch_for_submodule
  simp only [run_capture]
  split_ifs <;> exact ⟨_, by (try simp only [List.append_assoc]); rfl⟩

theorem list_submodules_loop_ext (env : Env) (repo : String) :
    ∀ lines acc tr, ∃ e, (list_submodules_loop env repo lines acc tr).2 = tr ++ e := by
  intro lines
  induction lines with
  | nil => intro acc tr; exact ⟨[], by simp [list_submodules_loop]⟩
  | cons line rest ih =>
    intro acc tr
    unfold list_submodules_loop
    simp only [run_capture]
    split_ifs <;>
      first
      | exact ext_trans (ih _ _) ⟨_, rfl⟩
      | exact ⟨[], (List.append_nil tr).symm⟩
      | exact ⟨_, by (try simp only [List.append_assoc]); rfl⟩

theorem list_submodules_ext (env : Env) (repo : String) (tr : List Cmd) :
    ∃ e, (list_submodules env repo tr).2 = tr ++ e := by
  unfold list_submodules
  simp only [run_capture]
  split_ifs <;> (try dsimp only) <;>
    first
    | exact ext_trans (list_submodules_loop_ext env repo _ _ _) ⟨_, rfl⟩
    | exact ext_trans ⟨_, rfl⟩
        (ext_trans (list_submodules_loop_ext env repo _ _ _) ⟨_, rfl⟩)
    | exact ⟨_, by (try simp only [List.append_assoc]); rfl⟩

theorem force_clean_loop_ext (env : Env) (repo : String) :
    ∀ subs tr, ∃ e, force_clean_loop env repo subs tr = tr ++ e := by
  intro subs
  induction subs with
  | nil => intro tr; exact ⟨[], by simp [force_clean_loop]⟩
  | cons p rest ih =>
    intro tr
    rcases p with ⟨name, path⟩
    unfold force_clean_loop
    refine ext_trans (ih _) ?_
    obtain ⟨e1, he1⟩ := detect_branch_ext env (repo ++ "/" ++ path) tr
    simp only [run]
    split_ifs <;> exact ⟨_, by rw [he1]; (try simp only [List.append_assoc]); rfl⟩

theorem publish_ext (env : Env) (stagingExists : Bool)
    (repo_dir staging_dir public_dir api_base_url : String) (tr : List Cmd) :
    ∃ e, (publish env stagingExists repo_dir staging_dir public_dir api_base_url tr).2
      = tr ++ e := by
  unfold publish
  simp only [call, run]
  split_ifs <;> exact ⟨_, by (try simp only [List.append_assoc]); rfl⟩

/-- The whole post-reset tail of `process_update` — submodule listing,
force-clean and publish — only appends to the trace it starts from. -/
theorem pfl_ext (env : Env) (stagingExists : Bool)
    (repo staging public api_base : String) (tr0 : List Cmd) :
    ∃ e, (publish env stagingExists repo staging public api_base
      (force_clean_loop env repo (list_submodules env repo tr0).1
        (list_submodules env repo tr0).2)).2 = tr0 ++ e := by
  refine ext_trans (ext_trans (publish_ext env stagingExists repo staging public api_base _)
    (force_clean_loop_ext env repo _ _)) (list_submodules_ext env repo tr0)

end ContentSync

namespace ContentSync

/-- Oracle for a fully successful cycle over one submodule `content`: the
submodule tracks `origin/main`, has a clean worktree, rebases cleanly and is
neither ahead nor behind; every other command succeeds with empty output. -/
def envHappySub : Env := fun _ c =>
  if c.argv = ["git", "config", "-f", ".gitmodules", "--name-only",
      "--get-regexp", "^submodule\\..*\\.path$"] then ⟨true, "submodule.content.path\n"⟩
  else if c.argv = ["git", "config", "-f", ".gitmodules", "submodule.content.path"] then
    ⟨true, "content"⟩
  else if c.argv = ["git", "rev-parse", "--abbrev-ref", "--symbolic-full-name", "@\x7bu\x7d"] then
    ⟨true, "origin/main"⟩
  else if c.argv = ["git", "rev-list", "--left-right", "--count", "HEAD...origin/main"] then
    ⟨true, "0 0"⟩
  else ⟨true, ""⟩

/-- Claim C3 (amended): the sync cycle performs no post-update pointer bump.
Beyond its input trace, `process_update` never spawns a `git add`, `git
commit` or `git push` in the parent repository: after the per-submodule sync
it only fetches and resets the parent, syncs and updates the submodule
checkouts, force-cleans them to their remote branches, and publishes.  (The
parent path is non-empty and the tracked ref is not itself literally named
`add`, `commit` or `push`.) -/
theorem C3_no_parent_pointer_bump
    (cfg : EnvConfig) (env : Env) (stagingExists : Bool)
    (repo public staging git_ref api_base : String) (tr : List Cmd)
    (hrepo : repo ≠ "") (h1 : git_ref ≠ "add") (h2 : git_ref ≠ "commit")
    (h3 : git_ref ≠ "push") :
    ∀ c ∈ (process_update cfg env stagingExists repo public staging git_ref api_base tr).2,
      c ∈ tr ∨ (c.cwd = repo → NoParentMutation c) := by
  have hlit : ∀ l : List String, (∀ x ∈ l, x ≠ "add" ∧ x ≠ "commit" ∧ x ≠ "push") →
      NoParentMutation ⟨l, repo⟩ := by
    intro l h
    exact ⟨contains_eq_false_of_forall_ne (fun x hx => (h x hx).1),
      contains_eq_false_of_forall_ne (fun x hx => (h x hx).2.1),
      contains_eq_false_of_forall_ne (fun x hx => (h x hx).2.2)⟩
  refine process_update_pres _ cfg env stagingExists repo public staging git_ref api_base tr
    ?_ ?_ ?_ ?_ ?_ ?_ ?_ ?_ ?_ ?_ ?_ ?_
  · intro rel argv
    exact Or.inr (fun hcwd => absurd hcwd (subdir_ne_repo repo rel))
  · refine Or.inr (fun _ => hlit _ ?_)
    intro x hx
    fin_cases hx <;> exact ⟨by decide, by decide, by decide⟩
  · intro s
    refine Or.inr (fun _ => hlit _ ?_)
    intro x hx
    fin_cases hx <;>
      first
      | exact ⟨by decide, by decide, by decide⟩
      | (refine ⟨ne_of_length_ne ?_, ne_of_length_ne ?_, ne_of_length_ne ?_⟩ <;>
          (rw [String.length_append, String.length_append]
           have ha : "submodule.".length = 10 := rfl
           have hb : ".path".length = 5 := rfl
           have hw1 : "add".length = 3 := rfl
           have hw2 : "commit".length = 6 := rfl
           have hw3 : "push".length = 4 := rfl
           omega))
  · refine Or.inr (fun _ => hlit _ ?_)
    intro x hx
    fin_cases hx <;> exact ⟨by decide, by decide, by decide⟩
  · refine Or.inr (fun _ => hlit _ ?_)
    intro x hx
    fin_cases hx <;> exact ⟨by decide, by decide, by decide⟩
  · refine Or.inr (fun _ => hlit _ ?_)
    intro x hx
    fin_cases hx <;>
      first
      | exact ⟨by decide, by decide, by decide⟩
      | (refine ⟨ne_of_length_ne ?_, ne_of_length_ne ?_, ne_of_length_ne ?_⟩ <;>
          (rw [String.length_append]
           have ha : "origin/".length = 7 := rfl
           have hw1 : "add".length = 3 := rfl
           have hw2 : "commit".length = 6 := rfl
           have hw3 : "push".length = 4 := rfl
           omega))
  · refine Or.inr (fun _ => hlit _ ?_)
    intro x hx
    fin_cases hx <;>
      first
      | exact ⟨by decide, by decide, by decide⟩
      | exact ⟨h1, h2, h3⟩
  · refine Or.inr (fun _ => hlit _ ?_)
    intro x hx
    fin_cases hx <;> exact ⟨by decide, by decide, by decide⟩
  · refine Or.inr (fun _ => hlit _ ?_)
    intro x hx
    fin_cases hx <;> exact ⟨by decide, by decide, by decide⟩
  · refine Or.inr (fun _ => hlit _ ?_)
    intro x hx
    fin_cases hx <;> exact ⟨by decide, by decide, by decide⟩
  · intro argv
    exact Or.inr (fun hcwd => absurd hcwd.symm hrepo)
  · exact fun x hx => Or.inl hx

/-- Witness for C3: in the concrete successful cycle the parent hard-reset
command is spawned and carries no add/commit/push. -/
theorem C3_no_parent_pointer_bump_witness :
    (⟨["git", "reset", "--hard", "origin/main"], "repo"⟩ : Cmd) ∈ ([] : List Cmd) ∨
      ((⟨["git", "reset", "--hard", "origin/main"], "repo"⟩ : Cmd).cwd = "repo" →
        NoParentMutation ⟨["git", "reset", "--hard", "origin/main"], "repo"⟩) :=
  C3_no_parent_pointer_bump {} envHappySub false "repo" "pub" "stg" "main" "" []
    (by decide) (by decide) (by decide) (by decide)
    ⟨["git", "reset", "--hard", "origin/main"], "repo"⟩ (by decide)

/-- Counterexample to C3 as stated: a complete, successful sync cycle whose
trace contains no staging, commit, rebase or push command in the parent
repository — no post-update pointer bump is performed. -/
theorem C3_no_parent_pointer_bump_counterexample :
    (process_update {} envHappySub false "repo" "pub" "stg" "main" "" []).1 = some true ∧
    ((process_update {} envHappySub false "repo" "pub" "stg" "main" "" []).2.filter
      (fun c => c.cwd == "repo" &&
        (c.argv.contains "add" || c.argv.contains "commit" || c.argv.contains "push")))
      = [] := by
  decide

end ContentSync

namespace ContentSync

/-- Claim C4 (amended): within a cycle the per-submodule bidirectional sync
runs FIRST; the parent checkout (fetch all remotes, hard-reset to
`origin/<ref>`, with a plain-checkout fallback) runs immediately AFTER it —
the reverse of the order the claim states: when the submodule sync succeeds,
the cycle's trace is exactly the submodule-sync trace followed by the parent
fetch, the parent hard-reset, and the remaining reconciliation/publish
commands. -/
theorem C4_submodule_sync_precedes_parent_checkout :
    ∀ cfg env stagingExists repo public staging git_ref api_base tr,
    (local_submodules_sync cfg env repo tr).1 = true →
    (env (local_submodules_sync cfg env repo tr).2
      ⟨["git", "fetch", "--all", "--prune"], repo⟩).ok = true →
    ∃ rest,
      (process_update cfg env stagingExists repo public staging git_ref api_base tr).2
        = (local_submodules_sync cfg env repo tr).2
          ++ [⟨["git", "fetch", "--all", "--prune"], repo⟩]
          ++ [⟨["git", "reset", "--hard", "origin/" ++ git_ref], repo⟩] ++ rest := by
  intro cfg env stagingExists repo public staging git_ref api_base tr hsubs hfetch
  unfold process_update
  simp only [run, hsubs, hfetch, Bool.not_true, Bool.false_eq_true, if_false]
  split_ifs <;> (try split) <;> (try dsimp only) <;>
    first
    | exact ext_trans (pfl_ext env stagingExists repo staging public api_base _)
        ⟨_, by (try simp only [List.append_assoc]); rfl⟩
    | exact ⟨_, by (try simp only [List.append_assoc]); rfl⟩

/-- Witness for C4: the concrete successful cycle decomposes as submodule-sync
trace, then parent fetch, then parent reset, then the tail. -/
theorem C4_submodule_sync_precedes_parent_checkout_witness :
    ∃ rest,
      (process_update {} envHappySub false "repo" "pub" "stg" "main" "" []).2
        = (local_submodules_sync {} envHappySub "repo" []).2
          ++ [⟨["git", "fetch", "--all", "--prune"], "repo"⟩]
          ++ [⟨["git", "reset", "--hard", "origin/main"], "repo"⟩] ++ rest :=
  C4_submodule_sync_precedes_parent_checkout {} envHappySub false "repo" "pub" "stg"
    "main" "" [] (by decide) (by decide)

/-- Counterexample to C4 as stated: in a concrete successful cycle both the
parent checkout fetch and a bidirectional-sync command (the submodule rebase
pull) occur, and the parent checkout does NOT come first — its index in the
trace is larger. -/
theorem C4_submodule_sync_precedes_parent_checkout_counterexample :
    (process_update {} envHappySub false "repo" "pub" "stg" "main" "" []).1 = some true ∧
    (⟨["git", "pull", "--rebase", "origin", "main"], "repo/content"⟩ : Cmd)
      ∈ (process_update {} envHappySub false "repo" "pub" "stg" "main" "" []).2 ∧
    (⟨["git", "fetch", "--all", "--prune"], "repo"⟩ : Cmd)
      ∈ (process_update {} envHappySub false "repo" "pub" "stg" "main" "" []).2 ∧
    ¬ ((process_update {} envHappySub false "repo" "pub" "stg" "main" "" []).2.findIdx
        (fun c => c == ⟨["git", "fetch", "--all", "--prune"], "repo"⟩)
      < (process_update {} envHappySub false "repo" "pub" "stg" "main" "" []).2.findIdx
        (fun c => c == ⟨["git", "pull", "--rebase", "origin", "main"], "repo/content"⟩)) := by
  decide

end ContentSync
